import Mathlib

/-!
Verification of the `muse` pipeline service against its specification.

The repository source is `src/archive/services/pipeline/app/main.py`, a
FastAPI application with two routes:

* `GET /health` returning `{"status": "ok", "service": "pipeline"}`;
* `POST /convert` taking a body validated against the pydantic model
  `ConvertRequest` (a single required field `document_url : str`) and
  returning the placeholder object
  `{"status": "ok", "message": "conversion endpoint placeholder",
    "document_url": req.document_url}`.

The first part of this file embeds that source.  The second part models,
from the specification's words, the components the spec itself says are
absent from the source (job dispatcher, status tracker, worker state
machine, capacity bound, `/status/{id}` route); those definitions carry a
`Modelled from the spec:` doc comment.
-/

/-- JSON values, the wire format of both endpoints.  Objects are ordered
field lists, as produced by the Python handlers. -/
inductive Json where
  | null
  | bool (b : Bool)
  | num (n : Int)
  | str (s : String)
  | arr (elems : List Json)
  | obj (fields : List (String × Json))

/-- First value bound to `key` in an object's field list. -/
def lookupField : List (String × Json) → String → Option Json
  | [], _ => none
  | (k, v) :: rest, key => if k = key then some v else lookupField rest key

/-- Field access on a JSON value: `some v` when the value is an object
with the field, `none` otherwise. -/
def getField : Json → String → Option Json
  | .obj fields, key => lookupField fields key
  | _, _ => none

/-- Whether a JSON value is an object carrying the field. -/
def hasField (j : Json) (key : String) : Bool :=
  (getField j key).isSome

/-- The pydantic request model of `main.py`: a single required field
`document_url : str` (``class ConvertRequest(BaseModel)``). -/
structure ConvertRequest where
  document_url : String

/-- Validation of a request body against the `ConvertRequest` schema: the
body must be a JSON object whose `document_url` field is a string; any
other shape is rejected.  Extra fields are ignored (pydantic's default). -/
def parseConvertRequest : Json → Option ConvertRequest
  | .obj fields =>
    match lookupField fields "document_url" with
    | some (.str s) => some ⟨s⟩
    | _ => none
  | _ => none

/-- The `/health` handler's response body, from `main.py`:
`{"status": "ok", "service": "pipeline"}`. -/
def health : Json :=
  .obj [("status", .str "ok"), ("service", .str "pipeline")]

/-- The `/convert` handler body, from `main.py`: echoes `document_url`
inside a fixed placeholder object. -/
def convert (req : ConvertRequest) : Json :=
  .obj [("status", .str "ok"),
        ("message", .str "conversion endpoint placeholder"),
        ("document_url", .str req.document_url)]

/-- The `POST /convert` route of the stub: validate the body against
`ConvertRequest`, then run the handler.  `none` means the framework
rejected the body before the handler ran; the rejection response itself
is produced by FastAPI, not by code under `src/`, so it is not modelled
here. -/
def stubPostConvert (body : Json) : Option Json :=
  (parseConvertRequest body).map convert

/-- A request to the stub application: one of its two routes. -/
inductive StubRequest where
  | health
  | convert (body : Json)

/-- Dispatch one request to the stub's handlers. -/
def stubHandle : StubRequest → Option Json
  | .health => some health
  | .convert body => stubPostConvert body

/-- Serve a sequence of requests.  `main.py` keeps no mutable state (its
only module-level objects are the immutable route table and the model
class), so serving is a pure map over the request list. -/
def stubRun (reqs : List StubRequest) : List (Option Json) :=
  reqs.map stubHandle

/-- Modelled from the spec: the state of a `ConversionJob`
(`Pending`, `Running`, `Succeeded`, `Failed`, §3); no state machine
exists under `src/`. -/
inductive JobState where
  | Pending
  | Running
  | Succeeded
  | Failed
deriving DecidableEq

/-- Modelled from the spec: a `ConversionJob` (§3) — identifier, source
document URL, requested output format, state, result payload reference
(present only when `Succeeded`), error detail (present only when
`Failed`).  The spec's timestamps are real-time data and are not
modelled. -/
structure ConversionJob where
  id : Nat
  documentUrl : String
  format : Option String
  state : JobState
  result : Option String
  error : Option String

/-- Modelled from the spec: a validated request draft (§4.1) — document
URL plus optional target format. -/
structure Draft where
  documentUrl : String
  format : Option String

/-- Modelled from the spec: validation of a raw conversion request body
(§4.1, §6): `document_url` is a required string, `format` an optional
string; anything else fails with `ValidationError`. -/
def parseDraft : Json → Option Draft
  | .obj fields =>
    match lookupField fields "document_url" with
    | some (.str u) =>
      match lookupField fields "format" with
      | none => some ⟨u, none⟩
      | some (.str f) => some ⟨u, some f⟩
      | some _ => none
    | _ => none
  | _ => none

/-- Modelled from the spec: the process-wide job table owned by the
Status Tracker (§4.4, §9) plus the dispatcher's identifier allocator. -/
structure SysState where
  jobs : List (Nat × ConversionJob)
  nextId : Nat

/-- Modelled from the spec: configured bound of the pending queue
(§4.2). -/
structure Config where
  capacity : Nat

/-- The table is empty at service start (§9). -/
def initState : SysState :=
  { jobs := [], nextId := 0 }

/-- `Get` of the Status Tracker (§4.4): first entry with the identifier. -/
def lookupJob : List (Nat × ConversionJob) → Nat → Option ConversionJob
  | [], _ => none
  | (i, j) :: rest, k => if i = k then some j else lookupJob rest k

/-- Apply `f` to every entry bound to `k` (the tracker's `Update`). -/
def updateJob (k : Nat) (f : ConversionJob → ConversionJob) :
    List (Nat × ConversionJob) → List (Nat × ConversionJob)
  | [] => []
  | (i, j) :: rest =>
    if i = k then (i, f j) :: updateJob k f rest
    else (i, j) :: updateJob k f rest

/-- Number of `Pending` jobs: the length of the pending queue. -/
def pendingCount (l : List (Nat × ConversionJob)) : Nat :=
  (l.filter (fun p => decide (p.2.state = JobState.Pending))).length

/-- Every job identifier ever issued (the table keeps jobs for the
process lifetime; no operation removes an entry). -/
def issuedIds (s : SysState) : List Nat :=
  s.jobs.map Prod.fst

/-- Modelled from the spec: the dispatcher's failure on a full pending
queue (§4.2). -/
inductive SubmitErr where
  | CapacityExceeded

/-- A fresh `Pending` job built from a validated draft (§4.2). -/
def mkJob (id : Nat) (d : Draft) : ConversionJob :=
  { id := id, documentUrl := d.documentUrl, format := d.format,
    state := .Pending, result := none, error := none }

/-- Modelled from the spec: `Submit(draft) → job_id` (§4.2) — allocates a
new unique identifier, creates a `Pending` job, registers it with the
Status Tracker; fails with `CapacityExceeded` when the pending queue is
at its configured bound. -/
def submit (cfg : Config) (d : Draft) (s : SysState) :
    Except SubmitErr (Nat × SysState) :=
  if cfg.capacity ≤ pendingCount s.jobs then
    .error .CapacityExceeded
  else
    .ok (s.nextId,
      { jobs := s.jobs ++ [(s.nextId, mkJob s.nextId d)],
        nextId := s.nextId + 1 })

/-- Modelled from the spec: a worker dequeues a `Pending` job and
transitions it to `Running` (§4.3); `none` when the transition is
illegal (`InvalidTransition`, §4.4) or the job is unknown. -/
def startJob (k : Nat) (s : SysState) : Option SysState :=
  match lookupJob s.jobs k with
  | some j =>
    if j.state = JobState.Pending then
      some { s with
        jobs := updateJob k (fun j => { j with state := .Running }) s.jobs }
    else none
  | none => none

/-- Record a collaborator outcome on a job: `Succeeded` with the result
attached, or `Failed` with the error attached (§4.3). -/
def applyOutcome (outcome : Except String String) (j : ConversionJob) :
    ConversionJob :=
  match outcome with
  | .ok res => { j with state := .Succeeded, result := some res }
  | .error e => { j with state := .Failed, error := some e }

/-- Modelled from the spec: on return of the collaborator a worker
transitions a `Running` job to `Succeeded` (attaching the result) or
`Failed` (attaching the error; timeouts are a `Failed` with reason
`Timeout`, §4.3); `none` when the transition is illegal or the job is
unknown. -/
def finishJob (k : Nat) (outcome : Except String String) (s : SysState) :
    Option SysState :=
  match lookupJob s.jobs k with
  | some j =>
    if j.state = JobState.Running then
      some { s with jobs := updateJob k (applyOutcome outcome) s.jobs }
    else none
  | none => none

/-- Modelled from the spec: `Cancel(job_id)` (§4.2) — marks a `Pending`
job `Failed` with reason `Cancelled`.  The no-op outcomes (advisory on
`Running`, `AlreadyTerminal` on terminal states, unknown id) leave the
state unchanged and are returned as `none`. -/
def cancel (k : Nat) (s : SysState) : Option SysState :=
  match lookupJob s.jobs k with
  | some j =>
    if j.state = JobState.Pending then
      some { s with
        jobs := updateJob k (fun j =>
          { j with state := .Failed, error := some "Cancelled" }) s.jobs }
    else none
  | none => none

/-- Modelled from the spec: one state-changing step of the designed
system — a submission, a worker picking a job up, a worker finishing a
job, or a cancellation (§4.2–§4.4, §5; single-job updates are atomic and
serialized, so the system's evolution is a sequence of such steps). -/
inductive Step (cfg : Config) (s : SysState) : SysState → Prop
  | submit (d : Draft) (id : Nat) (s' : SysState)
      (h : submit cfg d s = .ok (id, s')) : Step cfg s s'
  | start (k : Nat) (s' : SysState)
      (h : startJob k s = some s') : Step cfg s s'
  | finish (k : Nat) (outcome : Except String String) (s' : SysState)
      (h : finishJob k outcome s = some s') : Step cfg s s'
  | cancel (k : Nat) (s' : SysState)
      (h : cancel k s = some s') : Step cfg s s'

/-- Zero or more steps. -/
inductive Steps (cfg : Config) : SysState → SysState → Prop
  | refl (s : SysState) : Steps cfg s s
  | tail {s s' s'' : SysState} :
      Steps cfg s s' → Step cfg s' s'' → Steps cfg s s''

/-- States reachable from service start. -/
def Reach (cfg : Config) (s : SysState) : Prop :=
  Steps cfg initState s

/-- Position of a state along the lifecycle
`Pending → Running → (Succeeded | Failed)`. -/
def stateRank : JobState → Nat
  | .Pending => 0
  | .Running => 1
  | .Succeeded => 2
  | .Failed => 2

/-- An HTTP response: status code and JSON body. -/
structure HttpResponse where
  status : Nat
  body : Json

/-- Wire rendering of a job's state. -/
def renderState : JobState → String
  | .Pending => "Pending"
  | .Running => "Running"
  | .Succeeded => "Succeeded"
  | .Failed => "Failed"

/-- Modelled from the spec: the `/status/{job_id}` response body (§6) —
`{"job_id","state","result"?,"error"?}`. -/
def statusBody (j : ConversionJob) : Json :=
  .obj ([("job_id", .str (toString j.id)),
         ("state", .str (renderState j.state))]
    ++ (match j.result with
        | some r => [("result", Json.str r)]
        | none => [])
    ++ (match j.error with
        | some e => [("error", Json.str e)]
        | none => []))

/-- Modelled from the spec: `GET /status/{job_id}` (§4.5, §6) — `200`
with the current job state, `404` when the identifier is unknown; no
such route exists under `src/`. -/
def statusEndpoint (k : Nat) (s : SysState) : HttpResponse :=
  match lookupJob s.jobs k with
  | some j => ⟨200, statusBody j⟩
  | none => ⟨404, .obj [("error", .str "NotFound")]⟩

/-- Modelled from the spec: the full `POST /convert` of the designed
system (§4.5, §7) — validate via the Request Validator (`400` on
`ValidationError`), dispatch via `Submit` (`429` on `CapacityExceeded`),
answer `202 {"job_id"}` on success.  Under `src/` only the
`ConvertRequest` schema and a placeholder handler exist. -/
def specConvertEndpoint (cfg : Config) (body : Json) (s : SysState) :
    HttpResponse × SysState :=
  match parseDraft body with
  | none => (⟨400, .obj [("error", .str "ValidationError")]⟩, s)
  | some d =>
    match submit cfg d s with
    | .error _ => (⟨429, .obj [("error", .str "CapacityExceeded")]⟩, s)
    | .ok (id, s') => (⟨202, .obj [("job_id", .str (toString id))]⟩, s')

/-- The `GET /health` route: the handler body is `health` from
`main.py`; the status code is FastAPI's default `200` (the decorator
sets no `status_code`).  It takes the system state only to express that
it neither reads nor changes it. -/
def healthEndpoint (s : SysState) : HttpResponse × SysState :=
  (⟨200, health⟩, s)

/-- The observation sequences allowed by the spec's sentence: prefixes
of the chain `Pending → Running → (Succeeded | Failed)` (§3, §8).  This
definition follows the spec's words, to be compared with the modelled
system. -/
def chainObservations : List (List JobState) :=
  [[], [.Pending], [.Pending, .Running],
   [.Pending, .Running, .Succeeded], [.Pending, .Running, .Failed]]

/-- The valid submission body used in §8 of the spec. -/
def validBodyEx : Json := .obj [("document_url", .str "http://x/doc.pdf")]

/-- The malformed submission body used in §8 of the spec:
`{"document_url": 123}`. -/
def malformedBody : Json := .obj [("document_url", .num 123)]

/-- A valid body with an extra field, which pydantic ignores. -/
def bodyC3 : Json := .obj [("document_url", .str "u"), ("extra", .num 1)]

/-- A configuration with room for one pending job. -/
def cfg1 : Config := ⟨1⟩

/-- A configuration whose pending queue is always at its bound. -/
def cfg0 : Config := ⟨0⟩

/-- The draft validated from `validBodyEx`. -/
def draftW : Draft := ⟨"http://x/doc.pdf", none⟩

/-- The system state after submitting `draftW` to the fresh service. -/
def sAfterSubmit : SysState :=
  { jobs := [(0, mkJob 0 draftW)], nextId := 1 }

/-- Job `0` once a worker has picked it up. -/
def jobRunning : ConversionJob :=
  { id := 0, documentUrl := "http://x/doc.pdf", format := none,
    state := .Running, result := none, error := none }

/-- The system state after a worker picks job `0` up. -/
def sRunning : SysState :=
  { jobs := [(0, jobRunning)], nextId := 1 }

/-- The system state after cancelling job `0` while still `Pending`. -/
def sCancelled : SysState :=
  { jobs := [(0, { id := 0, documentUrl := "http://x/doc.pdf",
                   format := none, state := .Failed, result := none,
                   error := some "Cancelled" })],
    nextId := 1 }

/-! ### Lemmas about the job table -/

theorem lookupJob_append_some {l : List (Nat × ConversionJob)}
    {k : Nat} {j : ConversionJob} (l₂ : List (Nat × ConversionJob))
    (h : lookupJob l k = some j) : lookupJob (l ++ l₂) k = some j := by
  induction l with
  | nil => exact Option.noConfusion h
  | cons p rest ih =>
    obtain ⟨i, jv⟩ := p
    by_cases hik : i = k
    · simpa [lookupJob, hik] using h
    · rw [List.cons_append]
      simp only [lookupJob, if_neg hik] at h ⊢
      exact ih h

theorem lookupJob_updateJob (k : Nat) (f : ConversionJob → ConversionJob)
    (l : List (Nat × ConversionJob)) (k' : Nat) :
    lookupJob (updateJob k f l) k' =
      if k' = k then (lookupJob l k').map f else lookupJob l k' := by
  induction l with
  | nil => simp [lookupJob, updateJob]
  | cons p rest ih =>
    obtain ⟨i, jv⟩ := p
    by_cases hik : i = k
    · subst hik
      by_cases hk' : i = k'
      · subst hk'
        simp [updateJob, lookupJob, ih]
      · have hne : ¬ (k' = i) := fun heq => hk' heq.symm
        simp [updateJob, lookupJob, hk', hne, ih]
    · by_cases hk' : i = k'
      · subst hk'
        simp [updateJob, lookupJob, hik]
      · simp [updateJob, lookupJob, hik, hk', ih]

theorem map_fst_updateJob (k : Nat) (f : ConversionJob → ConversionJob)
    (l : List (Nat × ConversionJob)) :
    (updateJob k f l).map Prod.fst = l.map Prod.fst := by
  induction l with
  | nil => rfl
  | cons p rest ih =>
    obtain ⟨i, jv⟩ := p
    by_cases hik : i = k <;> simp [updateJob, hik, ih]

/-- Shape of a successful submission. -/
theorem submit_ok {cfg : Config} {d : Draft} {s : SysState} {id : Nat}
    {s' : SysState} (h : submit cfg d s = .ok (id, s')) :
    pendingCount s.jobs < cfg.capacity ∧ id = s.nextId ∧
      s' = { jobs := s.jobs ++ [(s.nextId, mkJob s.nextId d)],
             nextId := s.nextId + 1 } := by
  unfold submit at h
  split at h
  · exact absurd h (by simp)
  · rename_i hc
    injection h with h'
    injection h' with h1 h2
    exact ⟨by omega, h1.symm, h2.symm⟩

/-- Shape of a successful `startJob`. -/
theorem startJob_some {k : Nat} {s s' : SysState}
    (h : startJob k s = some s') :
    ∃ j, lookupJob s.jobs k = some j ∧ j.state = JobState.Pending ∧
      s' = { s with
        jobs := updateJob k (fun j => { j with state := .Running }) s.jobs } := by
  unfold startJob at h
  split at h
  · rename_i j hj
    split at h
    · rename_i hp
      exact ⟨j, hj, hp, (Option.some.inj h).symm⟩
    · exact absurd h (by simp)
  · exact absurd h (by simp)

/-- Shape of a successful `finishJob`. -/
theorem finishJob_some {k : Nat} {outcome : Except String String}
    {s s' : SysState} (h : finishJob k outcome s = some s') :
    ∃ j, lookupJob s.jobs k = some j ∧ j.state = JobState.Running ∧
      s' = { s with jobs := updateJob k (applyOutcome outcome) s.jobs } := by
  unfold finishJob at h
  split at h
  · rename_i j hj
    split at h
    · rename_i hp
      exact ⟨j, hj, hp, (Option.some.inj h).symm⟩
    · exact absurd h (by simp)
  · exact absurd h (by simp)

/-- Shape of a state-changing `cancel`. -/
theorem cancel_some {k : Nat} {s s' : SysState}
    (h : cancel k s = some s') :
    ∃ j, lookupJob s.jobs k = some j ∧ j.state = JobState.Pending ∧
      s' = { s with
        jobs := updateJob k (fun j =>
          { j with state := .Failed, error := some "Cancelled" }) s.jobs } := by
  unfold cancel at h
  split at h
  · rename_i j hj
    split at h
    · rename_i hp
      exact ⟨j, hj, hp, (Option.some.inj h).symm⟩
    · exact absurd h (by simp)
  · exact absurd h (by simp)

/-- Table invariant: every issued identifier is below the allocator, and
identifiers are pairwise distinct. -/
def InvState (s : SysState) : Prop :=
  (∀ i ∈ issuedIds s, i < s.nextId) ∧ (issuedIds s).Nodup

theorem invState_init : InvState initState := by
  constructor
  · intro i hi
    simp [issuedIds, initState] at hi
  · simp [issuedIds, initState]

theorem step_preserves_inv {cfg : Config} {s s' : SysState}
    (hstep : Step cfg s s') (hinv : InvState s) : InvState s' := by
  obtain ⟨hbound, hnodup⟩ := hinv
  cases hstep with
  | submit d id s' h =>
    obtain ⟨-, -, hs'⟩ := submit_ok h
    subst hs'
    constructor
    · intro i hi
      simp only [issuedIds, List.map_append] at hi
      rcases List.mem_append.mp hi with hi | hi
      · exact Nat.lt_succ_of_lt (hbound i hi)
      · simp at hi
        subst hi
        exact Nat.lt_succ_self _
    · simp only [issuedIds, List.map_append]
      rw [List.nodup_append]
      refine ⟨hnodup, by simp, ?_⟩
      intro i hi hj
      simp at hj
      subst hj
      exact absurd (hbound _ hi) (by omega)
  | start k s' h =>
    obtain ⟨j, -, -, hs'⟩ := startJob_some h
    subst hs'
    exact ⟨by simpa [issuedIds, map_fst_updateJob] using hbound,
           by simpa [issuedIds, map_fst_updateJob] using hnodup⟩
  | finish k outcome s' h =>
    obtain ⟨j, -, -, hs'⟩ := finishJob_some h
    subst hs'
    exact ⟨by simpa [issuedIds, map_fst_updateJob] using hbound,
           by simpa [issuedIds, map_fst_updateJob] using hnodup⟩
  | cancel k s' h =>
    obtain ⟨j, -, -, hs'⟩ := cancel_some h
    subst hs'
    exact ⟨by simpa [issuedIds, map_fst_updateJob] using hbound,
           by simpa [issuedIds, map_fst_updateJob] using hnodup⟩

theorem steps_preserve_inv {cfg : Config} {s s' : SysState}
    (hsteps : Steps cfg s s') (hinv : InvState s) : InvState s' := by
  induction hsteps with
  | refl => exact hinv
  | tail _ hstep ih => exact step_preserves_inv hstep ih

theorem reach_inv {cfg : Config} {s : SysState} (h : Reach cfg s) :
    InvState s :=
  steps_preserve_inv h invState_init

/-- One step never lowers a job's position along the lifecycle, and
never drops a job from the table. -/
theorem step_rank_mono {cfg : Config} {s s' : SysState}
    (hstep : Step cfg s s') (k : Nat) (j : ConversionJob)
    (hj : lookupJob s.jobs k = some j) :
    ∃ j', lookupJob s'.jobs k = some j' ∧
      stateRank j.state ≤ stateRank j'.state := by
  cases hstep with
  | submit d id s' h =>
    obtain ⟨-, -, hs'⟩ := submit_ok h
    subst hs'
    exact ⟨j, lookupJob_append_some _ hj, le_refl _⟩
  | start k₀ s' h =>
    obtain ⟨j₀, hj₀, hp₀, hs'⟩ := startJob_some h
    subst hs'
    by_cases hk : k = k₀
    · subst hk
      rw [hj] at hj₀
      injection hj₀ with hj₀
      subst hj₀
      refine ⟨{ j with state := .Running }, ?_, ?_⟩
      · simp [lookupJob_updateJob, hj]
      · simp [hp₀, stateRank]
    · exact ⟨j, by simp [lookupJob_updateJob, hk, hj], le_refl _⟩
  | finish k₀ outcome s' h =>
    obtain ⟨j₀, hj₀, hp₀, hs'⟩ := finishJob_some h
    subst hs'
    by_cases hk : k = k₀
    · subst hk
      rw [hj] at hj₀
      injection hj₀ with hj₀
      subst hj₀
      refine ⟨applyOutcome outcome j, ?_, ?_⟩
      · simp [lookupJob_updateJob, hj]
      · cases outcome <;> simp [applyOutcome, hp₀, stateRank]
    · exact ⟨j, by simp [lookupJob_updateJob, hk, hj], le_refl _⟩
  | cancel k₀ s' h =>
    obtain ⟨j₀, hj₀, hp₀, hs'⟩ := cancel_some h
    subst hs'
    by_cases hk : k = k₀
    · subst hk
      rw [hj] at hj₀
      injection hj₀ with hj₀
      subst hj₀
      refine ⟨{ j with state := .Failed, error := some "Cancelled" }, ?_, ?_⟩
      · simp [lookupJob_updateJob, hj]
      · simp [hp₀, stateRank]
    · exact ⟨j, by simp [lookupJob_updateJob, hk, hj], le_refl _⟩

/-- Any number of steps never lowers a job's position along the
lifecycle. -/
theorem steps_rank_mono {cfg : Config} {s s' : SysState}
    (hsteps : Steps cfg s s') (k : Nat) (j : ConversionJob)
    (hj : lookupJob s.jobs k = some j) :
    ∃ j', lookupJob s'.jobs k = some j' ∧
      stateRank j.state ≤ stateRank j'.state := by
  induction hsteps with
  | refl => exact ⟨j, hj, le_refl _⟩
  | tail _ hstep ih =>
    obtain ⟨jm, hjm, hle⟩ := ih
    obtain ⟨j', hj', hle'⟩ := step_rank_mono hstep _ _ hjm
    exact ⟨j', hj', le_trans hle hle'⟩

/-! ### The claims -/

/-- Claim C1 (counterexample): the response of `POST /convert` to the
valid submission body `{"document_url": "http://x/doc.pdf"}` is the
placeholder object, which carries no `job_id` field at all — so the
claim that every valid submission is answered with `202` and a `job_id`
string is false on the code. -/
theorem convert_job_id_counterexample :
    stubPostConvert validBodyEx = some (convert ⟨"http://x/doc.pdf"⟩) ∧
    hasField (convert ⟨"http://x/doc.pdf"⟩) "job_id" = false :=
  ⟨rfl, rfl⟩

/-- Claim C1 (amended): for every valid submission body, `POST /convert`
runs the placeholder handler and answers with the object
`{"status": "ok", "message": "conversion endpoint placeholder",
"document_url": <echoed>}`; the response carries no `job_id` field and
no job is created. -/
theorem convert_placeholder_response (body : Json) (req : ConvertRequest)
    (h : parseConvertRequest body = some req) :
    stubPostConvert body = some (convert req) ∧
    getField (convert req) "status" = some (.str "ok") ∧
    getField (convert req) "message" =
      some (.str "conversion endpoint placeholder") ∧
    getField (convert req) "document_url" = some (.str req.document_url) ∧
    hasField (convert req) "job_id" = false := by
  refine ⟨?_, rfl, rfl, rfl, rfl⟩
  simp [stubPostConvert, h]

/-- Claim C1 (witness): the amended claim at the concrete valid body. -/
theorem convert_placeholder_response_witness :
    stubPostConvert validBodyEx = some (convert ⟨"http://x/doc.pdf"⟩) ∧
    getField (convert ⟨"http://x/doc.pdf"⟩) "status" = some (.str "ok") ∧
    getField (convert ⟨"http://x/doc.pdf"⟩) "message" =
      some (.str "conversion endpoint placeholder") ∧
    getField (convert ⟨"http://x/doc.pdf"⟩) "document_url" =
      some (.str "http://x/doc.pdf") ∧
    hasField (convert ⟨"http://x/doc.pdf"⟩) "job_id" = false :=
  convert_placeholder_response validBodyEx ⟨"http://x/doc.pdf"⟩ rfl

/-- Claim C2: `GET /health` answers `200` with
`{"status": "ok", "service": "pipeline"}` in every system state, and
leaves the state untouched. -/
theorem health_always_ok (s : SysState) :
    healthEndpoint s =
      (⟨200, .obj [("status", .str "ok"), ("service", .str "pipeline")]⟩,
       s) :=
  rfl

/-- Claim C3: for every accepted request, the `document_url` field of
the `/convert` response equals the `document_url` field of the request
body, unchanged. -/
theorem convert_echoes_document_url (body : Json) (req : ConvertRequest)
    (h : parseConvertRequest body = some req) :
    getField (convert req) "document_url" = getField body "document_url" := by
  cases body with
  | obj fields =>
    simp only [parseConvertRequest] at h
    split at h
    · rename_i s hs
      injection h with h
      subst h
      simp [getField, convert, lookupField, hs]
    · exact absurd h (by simp)
  | null => exact Option.noConfusion h
  | bool b => exact Option.noConfusion h
  | num n => exact Option.noConfusion h
  | str s => exact Option.noConfusion h
  | arr elems => exact Option.noConfusion h

/-- Claim C3 (witness): the echo at a concrete accepted body. -/
theorem convert_echoes_document_url_witness :
    getField (convert ⟨"u"⟩) "document_url" = getField bodyC3 "document_url" :=
  convert_echoes_document_url bodyC3 ⟨"u"⟩ rfl

/-- Claim C4: a request body that fails validation (e.g. a non-string
`document_url`) is answered with `400` and the job table is left exactly
as it was — no job is created. -/
theorem convert_malformed_400_no_job (cfg : Config) (body : Json)
    (s : SysState) (h : parseDraft body = none) :
    specConvertEndpoint cfg body s =
      (⟨400, .obj [("error", .str "ValidationError")]⟩, s) := by
  simp [specConvertEndpoint, h]

/-- Claim C4 (witness): the spec's own example `{"document_url": 123}`
against a fresh service. -/
theorem convert_malformed_400_no_job_witness :
    specConvertEndpoint cfg1 malformedBody initState =
      (⟨400, .obj [("error", .str "ValidationError")]⟩, initState) :=
  convert_malformed_400_no_job cfg1 malformedBody initState rfl

/-- Claim C5: `GET /status/{job_id}` answers `200` carrying the current
job state when the identifier is in the table, and `404` when it is
unknown. -/
theorem status_endpoint_ok_or_404 (s : SysState) (k : Nat) :
    (∀ j, lookupJob s.jobs k = some j →
      statusEndpoint k s = ⟨200, statusBody j⟩) ∧
    (lookupJob s.jobs k = none →
      statusEndpoint k s = ⟨404, .obj [("error", .str "NotFound")]⟩) := by
  constructor
  · intro j hj
    simp [statusEndpoint, hj]
  · intro h
    simp [statusEndpoint, h]

/-- Claim C5 (witness): both branches at a concrete table. -/
theorem status_endpoint_ok_or_404_witness :
    statusEndpoint 0 sRunning = ⟨200, statusBody jobRunning⟩ ∧
    statusEndpoint 7 sRunning = ⟨404, .obj [("error", .str "NotFound")]⟩ :=
  ⟨(status_endpoint_ok_or_404 sRunning 0).1 jobRunning rfl,
   (status_endpoint_ok_or_404 sRunning 7).2 rfl⟩

/-- Claim C6: in any reachable state, a successful `Submit` returns an
identifier distinct from every identifier previously issued, and records
it; identifiers in the table are unique for the process lifetime. -/
theorem submit_returns_fresh_id (cfg : Config) (d : Draft) (s : SysState)
    (id : Nat) (s' : SysState) (hreach : Reach cfg s)
    (hsub : submit cfg d s = .ok (id, s')) :
    id ∉ issuedIds s ∧ issuedIds s' = issuedIds s ++ [id] ∧
    (issuedIds s').Nodup := by
  obtain ⟨hbound, hnodup⟩ := reach_inv hreach
  obtain ⟨-, hid, hs'⟩ := submit_ok hsub
  subst hid
  subst hs'
  refine ⟨?_, by simp [issuedIds], ?_⟩
  · intro hmem
    exact absurd (hbound _ hmem) (lt_irrefl _)
  · simp only [issuedIds, List.map_append]
    rw [List.nodup_append]
    refine ⟨hnodup, by simp, ?_⟩
    intro i hi hj
    simp at hj
    subst hj
    exact absurd (hbound _ hi) (lt_irrefl _)

/-- Claim C6 (witness): the first submission to a fresh service issues
identifier `0`, which was never issued before. -/
theorem submit_returns_fresh_id_witness :
    0 ∉ issuedIds initState ∧
    issuedIds sAfterSubmit = issuedIds initState ++ [0] ∧
    (issuedIds sAfterSubmit).Nodup :=
  submit_returns_fresh_id cfg1 draftW initState 0 sAfterSubmit
    (Steps.refl initState) rfl

/-- Claim C7 (counterexample): submitting a job and then cancelling it
while `Pending` is an execution of the modelled system in which the
job's observed state sequence is `[Pending, Failed]` — not a prefix of
`Pending → Running → (Succeeded | Failed)`, even though the state never
regresses. -/
theorem cancelled_job_not_chain_counterexample :
    Step cfg1 initState sAfterSubmit ∧
    Step cfg1 sAfterSubmit sCancelled ∧
    (lookupJob sAfterSubmit.jobs 0).map ConversionJob.state =
      some JobState.Pending ∧
    (lookupJob sCancelled.jobs 0).map ConversionJob.state =
      some JobState.Failed ∧
    [JobState.Pending, JobState.Failed] ∉ chainObservations :=
  ⟨Step.submit draftW 0 sAfterSubmit rfl,
   Step.cancel 0 sCancelled rfl, rfl, rfl, by decide⟩

/-- Claim C7 (amended): along any execution a job never regresses — its
state only moves forward in the order
`Pending < Running < (Succeeded | Failed)`; because `Cancel` takes a
`Pending` job directly to `Failed`, the observed sequence is a
subsequence, not always a prefix, of the chain. -/
theorem job_state_never_regresses (cfg : Config) (s s' : SysState)
    (k : Nat) (j j' : ConversionJob) (hsteps : Steps cfg s s')
    (hj : lookupJob s.jobs k = some j)
    (hj' : lookupJob s'.jobs k = some j') :
    stateRank j.state ≤ stateRank j'.state := by
  obtain ⟨j'', hj'', hle⟩ := steps_rank_mono hsteps k j hj
  rw [hj'] at hj''
  injection hj'' with hj''
  subst hj''
  exact hle

/-- Claim C7 (witness): along the one-step execution in which a worker
picks job `0` up, the job's rank does not decrease. -/
theorem job_state_never_regresses_witness :
    stateRank (mkJob 0 draftW).state ≤ stateRank jobRunning.state :=
  job_state_never_regresses cfg1 sAfterSubmit sRunning 0
    (mkJob 0 draftW) jobRunning
    (Steps.tail (Steps.refl sAfterSubmit) (Step.start 0 sRunning rfl))
    rfl rfl

/-- Claim C8: when the pending queue is at its configured bound, a valid
submission to `POST /convert` is answered `429` (`CapacityExceeded`) and
the system state — in particular every existing job's state — is left
unchanged. -/
theorem convert_full_queue_429_unchanged (cfg : Config) (body : Json)
    (d : Draft) (s : SysState) (hbody : parseDraft body = some d)
    (hfull : pendingCount s.jobs = cfg.capacity) :
    specConvertEndpoint cfg body s =
      (⟨429, .obj [("error", .str "CapacityExceeded")]⟩, s) := by
  have hc : cfg.capacity ≤ pendingCount s.jobs := le_of_eq hfull.symm
  simp [specConvertEndpoint, hbody, submit, hc]

/-- Claim C8 (witness): with bound `0` the fresh service is already at
capacity, and a valid submission bounces with `429` leaving the state
unchanged. -/
theorem convert_full_queue_429_unchanged_witness :
    specConvertEndpoint cfg0 validBodyEx initState =
      (⟨429, .obj [("error", .str "CapacityExceeded")]⟩, initState) :=
  convert_full_queue_429_unchanged cfg0 validBodyEx draftW initState rfl rfl

/-- Claim C9: every body whose `document_url` is a string — empty,
non-URL, or carrying an unsupported `format` — passes validation and
gets the placeholder response; the `format` field changes nothing. -/
theorem convert_no_url_or_format_check (s fmt : String) :
    parseConvertRequest (.obj [("document_url", .str s)]) = some ⟨s⟩ ∧
    parseConvertRequest
      (.obj [("document_url", .str s), ("format", .str fmt)]) = some ⟨s⟩ ∧
    stubPostConvert (.obj [("document_url", .str s), ("format", .str fmt)]) =
      stubPostConvert (.obj [("document_url", .str s)]) ∧
    stubPostConvert (.obj [("document_url", .str s)]) = some (convert ⟨s⟩) :=
  ⟨rfl, rfl, rfl, rfl⟩

/-- Claim C10: the stub's handlers are deterministic and stateless — the
response to any request is a function of that request alone, so it is
identical across runs and unaffected by any earlier requests served. -/
theorem stub_deterministic_and_stateless
    (pre₁ pre₂ : List StubRequest) (r : StubRequest) :
    (stubRun (pre₁ ++ [r])).getLast? = some (stubHandle r) ∧
    (stubRun (pre₁ ++ [r])).getLast? = (stubRun (pre₂ ++ [r])).getLast? := by
  have h : ∀ pre : List StubRequest,
      (stubRun (pre ++ [r])).getLast? = some (stubHandle r) := by
    intro pre
    simp [stubRun]
  exact ⟨h pre₁, (h pre₁).trans (h pre₂).symm⟩
